import Mathlib

set_option autoImplicit false

/-!
Verification of the auth-rs identity/authorization core: a shallow embedding
of the user repository, the permission service with its audit coupling, the
authentication endpoints (login, register, current-user) and the user-id
token extractor, together with theorems about their error handling, audit
gating and authentication behaviour.

Effectful Rust code over a MongoDB handle is embedded as explicit state
passing over a `MongoDB` record; each fallible store primitive gets an
explicit failure knob (`Option String` holding the backend error message,
`none` meaning the store is healthy) so that backend failures are part of
the state and the wrapping behaviour of each repository function is visible.
-/

namespace AuthRs

/-- Decidable equality for `Except`, so that concrete repository results can
be checked by evaluation. -/
instance {ε α : Type} [DecidableEq ε] [DecidableEq α] : DecidableEq (Except ε α)
  | .ok x, .ok y =>
    if h : x = y then .isTrue (congrArg Except.ok h)
    else .isFalse (fun hh => h (Except.ok.inj hh))
  | .error x, .error y =>
    if h : x = y then .isTrue (congrArg Except.error h)
    else .isFalse (fun hh => h (Except.error.inj hh))
  | .ok _, .error _ => .isFalse (fun hh => Except.noConfusion hh)
  | .error _, .ok _ => .isFalse (fun hh => Except.noConfusion hh)

/-- A user entity as stored in the users collection, mirroring the struct in
`src/repository/user/user.rs`. The serde renames there map `id` to `_id`,
`first_name` to `firstName`, `last_name` to `lastName`, `created_at` to
`createdAt` and `updated_at` to `updatedAt`; the serialized key names are
modelled separately by `userToDoc`. -/
structure User where
  id : String
  username : String
  email : String
  first_name : String
  last_name : String
  password : String
  roles : Option (List String)
  created_at : String
  updated_at : String
  enabled : Bool
  deriving DecidableEq, Repr

/-- Modelled from the spec: the Role entity (id, unique name, optional set of
Permission ids); its source file is not part of the reviewed sources. -/
structure Role where
  id : String
  name : String
  permissions : Option (List String)
  deriving DecidableEq, Repr

/-- Modelled from the spec: the Permission entity (id, unique name,
description); its source file is not part of the reviewed sources. -/
structure Permission where
  id : String
  name : String
  description : String
  deriving DecidableEq, Repr

/-- Audit action kinds, as used by the permission service
(`src/services/permission/permission_service.rs` imports
Create/Read/Update/Delete/Search). -/
inductive Action where
  | Create
  | Read
  | Update
  | Delete
  | Search
  deriving DecidableEq, Repr

/-- Resource id tags passed to `Audit::new` by the permission service call
sites, plus `UserName` as used by the audited user-service lookup of the
token extractor. `NoId` stands for the tag the source calls None. -/
inductive ResourceIdType where
  | PermissionId
  | PermissionIdVec
  | PermissionName
  | PermissionSearch
  | UserName
  | NoId
  deriving DecidableEq, Repr

/-- Resource kinds an audit record can refer to. -/
inductive ResourceType where
  | UserRes
  | RoleRes
  | PermissionRes
  deriving DecidableEq, Repr

/-- Modelled from the spec: the Audit record (actor, action, tagged resource
id, resource type, generated id and construction timestamp); its source file
is not part of the reviewed sources. -/
structure Audit where
  id : String
  user_id : String
  action : Action
  resource_id : String
  resource_id_type : ResourceIdType
  resource_type : ResourceType
  timestamp : String
  deriving DecidableEq, Repr

/-- Constructor mirroring the `Audit::new(user_id, action, resource_id,
resource_id_type, resource_type)` call sites; the generated id and the
construction timestamp are supplied by the environment (threaded through the
database state as `fresh_id` and `now`). -/
def Audit.new (user_id : String) (action : Action) (resource_id : String)
    (resource_id_type : ResourceIdType) (resource_type : ResourceType)
    (id now : String) : Audit :=
  { id := id, user_id := user_id, action := action, resource_id := resource_id,
    resource_id_type := resource_id_type, resource_type := resource_type,
    timestamp := now }

/-- The document store state: the collections touched by the embedded code,
an ambient clock and fresh-id source for generated timestamps and ids, and
one failure knob per store primitive (`none` = healthy, `some msg` = the
primitive fails with backend error `msg`). `insert_dropped` models the
partial-write anomaly in which an insert reports success but the document is
not visible to the immediate re-read. -/
structure MongoDB where
  users : List User
  roles : List Role
  permissions : List Permission
  audits : List Audit
  now : String
  fresh_id : String
  find_fails : Option String
  collect_fails : Option String
  insert_fails : Option String
  insert_dropped : Bool
  update_fails : Option String
  delete_fails : Option String
  audit_fails : Option String
  deriving DecidableEq, Repr

/-- Error type of the user repository, mirroring `enum Error` in
`src/repository/user/user_repository.rs`; the wrapped `mongodb::error::Error`
is modelled by its message string. -/
inductive UserRepoError where
  | EmptyId
  | EmptyUsername
  | EmptyCollection
  | EmptyEmail
  | UserNotFound
  | UsernameAlreadyTaken
  | EmailAlreadyTaken
  | MongoDbError (msg : String)
  deriving DecidableEq, Repr

/-- Display strings of the user repository errors, mirroring the `Display`
impl in `src/repository/user/user_repository.rs`. -/
def UserRepoError.toMessage : UserRepoError → String
  | .EmptyId => "Empty User ID"
  | .EmptyUsername => "Empty username"
  | .EmptyCollection => "Empty collection"
  | .EmptyEmail => "Empty email"
  | .UserNotFound => "User not found"
  | .UsernameAlreadyTaken => "Username already taken"
  | .EmailAlreadyTaken => "Email already taken"
  | .MongoDbError msg => "MongoDB error: " ++ msg

/-- Lookup of a user by id (`UserRepository::find_by_id`): rejects the empty
id, wraps a backend failure of `find_one`, otherwise returns the first stored
user whose `_id` matches. -/
def userFindById (id : String) (db : MongoDB) : Except UserRepoError (Option User) :=
  if id = "" then .error .EmptyId
  else
    match db.find_fails with
    | some m => .error (.MongoDbError m)
    | none => .ok (db.users.find? (fun w => w.id = id))

/-- Lookup of a user by username (`UserRepository::find_by_username`):
rejects the empty username, wraps a backend failure, otherwise returns the
first stored user with that username. -/
def userFindByUsername (username : String) (db : MongoDB) :
    Except UserRepoError (Option User) :=
  if username = "" then .error .EmptyUsername
  else
    match db.find_fails with
    | some m => .error (.MongoDbError m)
    | none => .ok (db.users.find? (fun w => w.username = username))

/-- Lookup of a user by email (`UserRepository::find_by_email`): rejects the
empty email, wraps a backend failure, otherwise returns the first stored user
with that email. -/
def userFindByEmail (email : String) (db : MongoDB) :
    Except UserRepoError (Option User) :=
  if email = "" then .error .EmptyEmail
  else
    match db.find_fails with
    | some m => .error (.MongoDbError m)
    | none => .ok (db.users.find? (fun w => w.email = email))

/-- Listing of all users (`UserRepository::find_all`): a backend failure of
the initial `find` is wrapped into `MongoDbError`, but a failure while
collecting the cursor is swallowed by `unwrap_or_else(|_| vec![])` and
replaced by the empty vector. -/
def userFindAll (db : MongoDB) : Except UserRepoError (List User) :=
  match db.find_fails with
  | some m => .error (.MongoDbError m)
  | none =>
    match db.collect_fails with
    | some _ => .ok []
    | none => .ok db.users

/-- Creation of a user (`UserRepository::create`): pre-checks the username
and then the email against the store, wraps an insert failure, then re-reads
the inserted user by id and fails `UserNotFound` when the re-read comes back
empty (which in this model happens exactly when the write was dropped). -/
def userCreate (u : User) (db : MongoDB) : Except UserRepoError User × MongoDB :=
  match userFindByUsername u.username db with
  | .error e => (.error e, db)
  | .ok (some _) => (.error .UsernameAlreadyTaken, db)
  | .ok none =>
    match userFindByEmail u.email db with
    | .error e => (.error e, db)
    | .ok (some _) => (.error .EmailAlreadyTaken, db)
    | .ok none =>
      match db.insert_fails with
      | some m => (.error (.MongoDbError m), db)
      | none =>
        let db1 := if db.insert_dropped then db else { db with users := db.users ++ [u] }
        match userFindById u.id db1 with
        | .error e => (.error e, db1)
        | .ok (some w) => (.ok w, db1)
        | .ok none => (.error .UserNotFound, db1)

/-- Effect of the update on a stored user, following the `$set` document of
`UserRepository::update`: it sets username, email, firstName, lastName,
roles and enabled. It does not touch `password` or `createdAt` (absent from
the `$set`), and it does not change the stored `updatedAt` either, because
the `$set` writes the key `updated_at` while the serialized field name is
`updatedAt`; the stray key is invisible in this struct-level view and is
modelled at document level by `storedDocAfterUpdate`. -/
def applyUserUpdate (u old : User) : User :=
  { old with
    username := u.username
    email := u.email
    first_name := u.first_name
    last_name := u.last_name
    roles := u.roles
    enabled := u.enabled }

/-- Replacement of the first stored user whose id matches, modelling the
single-document semantics of `find_one_and_update`. -/
def updateFirstById (u : User) : List User → List User
  | [] => []
  | w :: ws => if w.id = u.id then applyUserUpdate u w :: ws else w :: updateFirstById u ws

/-- True when the natural-key pre-check of `UserRepository::update` treats a
lookup hit as a collision: a user was found and its id differs from the id of
the entity being updated. -/
def clashesWithOther (hit : Option User) (id : String) : Bool :=
  match hit with
  | some p => p.id ≠ id
  | none => false

/-- Update of a user (`UserRepository::update`): re-checks username and email
uniqueness excluding the entity's own id, wraps a backend failure of
`find_one_and_update`, fails `UserNotFound` when no document matches the id,
and otherwise applies the `$set` and returns the pre-image (the source does
not request the post-image). -/
def userUpdate (u : User) (db : MongoDB) : Except UserRepoError User × MongoDB :=
  match userFindByUsername u.username db with
  | .error e => (.error e, db)
  | .ok hu =>
    if clashesWithOther hu u.id then (.error .UsernameAlreadyTaken, db)
    else
      match userFindByEmail u.email db with
      | .error e => (.error e, db)
      | .ok he =>
        if clashesWithOther he u.id then (.error .EmailAlreadyTaken, db)
        else
          match db.update_fails with
          | some m => (.error (.MongoDbError m), db)
          | none =>
            match db.users.find? (fun w => w.id = u.id) with
            | none => (.error .UserNotFound, db)
            | some old =>
              (.ok old, { db with users := updateFirstById u db.users })

/-- Deletion of a user by id (`UserRepository::delete`): rejects the empty
id, wraps a backend failure of `delete_one`, and otherwise succeeds whether
or not a matching user exists. -/
def userDelete (id : String) (db : MongoDB) : Except UserRepoError Unit × MongoDB :=
  if id = "" then (.error .EmptyId, db)
  else
    match db.delete_fails with
    | some m => (.error (.MongoDbError m), db)
    | none => (.ok (), { db with users := db.users.filter (fun w => w.id ≠ id) })

/-- Error type of the audit repository; the only failure mode is a wrapped
store backend error. -/
inductive AuditError where
  | MongoDbError (msg : String)
  deriving DecidableEq, Repr

/-- Modelled from the spec: the audit ledger's single operation,
`create(audit) -> Audit | StoreBackendFailure` (the audit service and
repository sources are not part of the reviewed sources). On success the
record is appended to the append-only ledger; on failure the state is
untouched. -/
def auditCreate (a : Audit) (db : MongoDB) : Except AuditError Audit × MongoDB :=
  match db.audit_fails with
  | some m => (.error (.MongoDbError m), db)
  | none => (.ok a, { db with audits := db.audits ++ [a] })

/-- Error type of the permission repository and service, mirroring the
variants used by `src/services/permission/permission_service.rs`
(`Error::Audit(e)` wraps an audit-ledger failure); the repository-side
variants are modelled from the spec's taxonomy. -/
inductive PermError where
  | EmptyId
  | EmptyName
  | PermissionNotFound
  | NameAlreadyTaken
  | MongoDbError (msg : String)
  | Audit (e : AuditError)
  deriving DecidableEq, Repr

/-- True when `sub` occurs as a contiguous substring of `s`. -/
def strContainsSub (s sub : String) : Bool :=
  (List.range (s.length + 1)).any (fun i => sub.isPrefixOf (s.drop i))

/-- Rust Debug formatting of a vector of strings, as produced by the
`format!("{:?}", id_vec)` call in the permission service. -/
def debugFormatIdVec (ids : List String) : String :=
  "[" ++ String.intercalate ", " (ids.map (fun s => "\"" ++ s ++ "\"")) ++ "]"

/-- Modelled from the spec: `PermissionRepository::create` (source not under
review): empty-name validation, duplicate-name pre-check, insert with wrapped
backend failure, then re-read by id failing `PermissionNotFound` when the
re-read comes back empty. -/
def permRepoCreate (p : Permission) (db : MongoDB) : Except PermError Permission × MongoDB :=
  if p.name = "" then (.error .EmptyName, db)
  else
    match db.find_fails with
    | some m => (.error (.MongoDbError m), db)
    | none =>
      if db.permissions.any (fun q => q.name = p.name) then (.error .NameAlreadyTaken, db)
      else
        match db.insert_fails with
        | some m => (.error (.MongoDbError m), db)
        | none =>
          let db1 := if db.insert_dropped then db
                     else { db with permissions := db.permissions ++ [p] }
          match db1.permissions.find? (fun q => q.id = p.id) with
          | some q => (.ok q, db1)
          | none => (.error .PermissionNotFound, db1)

/-- Modelled from the spec: `PermissionRepository::find_all` (source not
under review): returns all stored permissions, wrapping a backend failure. -/
def permRepoFindAll (db : MongoDB) : Except PermError (List Permission) :=
  match db.find_fails with
  | some m => .error (.MongoDbError m)
  | none => .ok db.permissions

/-- Modelled from the spec: `PermissionRepository::find_by_id` (source not
under review). -/
def permRepoFindById (id : String) (db : MongoDB) : Except PermError (Option Permission) :=
  if id = "" then .error .EmptyId
  else
    match db.find_fails with
    | some m => .error (.MongoDbError m)
    | none => .ok (db.permissions.find? (fun q => q.id = id))

/-- Modelled from the spec: `PermissionRepository::find_by_name` (source not
under review). -/
def permRepoFindByName (name : String) (db : MongoDB) : Except PermError (Option Permission) :=
  if name = "" then .error .EmptyName
  else
    match db.find_fails with
    | some m => .error (.MongoDbError m)
    | none => .ok (db.permissions.find? (fun q => q.name = name))

/-- Modelled from the spec: `PermissionRepository::find_by_id_vec` (source
not under review): returns the subset of stored permissions whose id occurs
in the requested vector. -/
def permRepoFindByIdVec (ids : List String) (db : MongoDB) : Except PermError (List Permission) :=
  match db.find_fails with
  | some m => .error (.MongoDbError m)
  | none => .ok (db.permissions.filter (fun q => ids.contains q.id))

/-- Modelled from the spec: `PermissionRepository::update` (source not under
review): duplicate-name pre-check excluding the entity's own id, then a
single-document update failing `PermissionNotFound` when no document matches
the id. -/
def permRepoUpdate (p : Permission) (db : MongoDB) : Except PermError Permission × MongoDB :=
  if p.name = "" then (.error .EmptyName, db)
  else
    match db.find_fails with
    | some m => (.error (.MongoDbError m), db)
    | none =>
      if db.permissions.any (fun q => q.name = p.name && q.id ≠ p.id) then
        (.error .NameAlreadyTaken, db)
      else
        match db.update_fails with
        | some m => (.error (.MongoDbError m), db)
        | none =>
          match db.permissions.find? (fun q => q.id = p.id) with
          | none => (.error .PermissionNotFound, db)
          | some _ =>
            (.ok p, { db with permissions :=
              db.permissions.map (fun q => if q.id = p.id then p else q) })

/-- Modelled from the spec: `PermissionRepository::delete` together with the
Role-management detachment it is handed (source not under review): rejects
the empty id, wraps a backend failure, removes the permission and detaches
its id from the permission set of every role referencing it. -/
def permRepoDelete (id : String) (db : MongoDB) : Except PermError Unit × MongoDB :=
  if id = "" then (.error .EmptyId, db)
  else
    match db.delete_fails with
    | some m => (.error (.MongoDbError m), db)
    | none =>
      (.ok (), { db with
        permissions := db.permissions.filter (fun q => q.id ≠ id)
        roles := db.roles.map (fun r =>
          { r with permissions := r.permissions.map (fun ps => ps.filter (fun q => q ≠ id)) }) })

/-- Modelled from the spec: `PermissionRepository::search` (source not under
review): full-text search over name and description. -/
def permRepoSearch (text : String) (db : MongoDB) : Except PermError (List Permission) :=
  match db.find_fails with
  | some m => .error (.MongoDbError m)
  | none =>
    .ok (db.permissions.filter (fun q =>
      strContainsSub q.name text || strContainsSub q.description text))

/-- `PermissionService::create`: writes the audit record, aborts with
`Error::Audit` when the ledger write fails, otherwise delegates to the
repository (`src/services/permission/permission_service.rs`). -/
def permServiceCreate (new_permission : Permission) (user_id : String) (db : MongoDB) :
    Except PermError Permission × MongoDB :=
  match auditCreate (Audit.new user_id .Create new_permission.id .PermissionId
      .PermissionRes db.fresh_id db.now) db with
  | (.error e, db1) => (.error (.Audit e), db1)
  | (.ok _, db1) => permRepoCreate new_permission db1

/-- `PermissionService::find_all`: audit gate, then repository listing. -/
def permServiceFindAll (user_id : String) (db : MongoDB) :
    Except PermError (List Permission) × MongoDB :=
  match auditCreate (Audit.new user_id .Read "" .NoId .PermissionRes db.fresh_id db.now) db with
  | (.error e, db1) => (.error (.Audit e), db1)
  | (.ok _, db1) => (permRepoFindAll db1, db1)

/-- `PermissionService::find_by_id_vec`: audit gate (resource id is the Debug
formatting of the id vector), then repository lookup. -/
def permServiceFindByIdVec (id_vec : List String) (user_id : String) (db : MongoDB) :
    Except PermError (List Permission) × MongoDB :=
  match auditCreate (Audit.new user_id .Read (debugFormatIdVec id_vec) .PermissionIdVec
      .PermissionRes db.fresh_id db.now) db with
  | (.error e, db1) => (.error (.Audit e), db1)
  | (.ok _, db1) => (permRepoFindByIdVec id_vec db1, db1)

/-- `PermissionService::find_by_id`: audit gate, then repository lookup. -/
def permServiceFindById (id user_id : String) (db : MongoDB) :
    Except PermError (Option Permission) × MongoDB :=
  match auditCreate (Audit.new user_id .Read id .PermissionId .PermissionRes
      db.fresh_id db.now) db with
  | (.error e, db1) => (.error (.Audit e), db1)
  | (.ok _, db1) => (permRepoFindById id db1, db1)

/-- `PermissionService::find_by_name`: audit gate, then repository lookup. -/
def permServiceFindByName (name user_id : String) (db : MongoDB) :
    Except PermError (Option Permission) × MongoDB :=
  match auditCreate (Audit.new user_id .Read name .PermissionName .PermissionRes
      db.fresh_id db.now) db with
  | (.error e, db1) => (.error (.Audit e), db1)
  | (.ok _, db1) => (permRepoFindByName name db1, db1)

/-- `PermissionService::update`: audit gate, then repository update. -/
def permServiceUpdate (permission : Permission) (user_id : String) (db : MongoDB) :
    Except PermError Permission × MongoDB :=
  match auditCreate (Audit.new user_id .Update permission.id .PermissionId .PermissionRes
      db.fresh_id db.now) db with
  | (.error e, db1) => (.error (.Audit e), db1)
  | (.ok _, db1) => permRepoUpdate permission db1

/-- `PermissionService::delete`: audit gate, then repository delete with the
role-detachment collaborator. -/
def permServiceDelete (id user_id : String) (db : MongoDB) :
    Except PermError Unit × MongoDB :=
  match auditCreate (Audit.new user_id .Delete id .PermissionId .PermissionRes
      db.fresh_id db.now) db with
  | (.error e, db1) => (.error (.Audit e), db1)
  | (.ok _, db1) => permRepoDelete id db1

/-- `PermissionService::search`: audit gate (empty resource id, search tag),
then repository search. -/
def permServiceSearch (text user_id : String) (db : MongoDB) :
    Except PermError (List Permission) × MongoDB :=
  match auditCreate (Audit.new user_id .Search "" .PermissionSearch .PermissionRes
      db.fresh_id db.now) db with
  | (.error e, db1) => (.error (.Audit e), db1)
  | (.ok _, db1) => (permRepoSearch text db1, db1)

/-- Error type of the role repository lookups used by the gateway; modelled
from the spec's taxonomy (the role repository source is not under review). -/
inductive RoleError where
  | EmptyName
  | MongoDbError (msg : String)
  deriving DecidableEq, Repr

/-- Modelled from the spec: display string of a role repository error, used
where the gateway serializes `e.to_string()`. -/
def RoleError.toMessage : RoleError → String
  | .EmptyName => "Empty name"
  | .MongoDbError msg => "MongoDB error: " ++ msg

/-- Modelled from the spec: `RoleRepository::find_by_name` (source not under
review): empty-name validation, wrapped backend failure, first stored role
with the requested name. -/
def roleFindByName (name : String) (db : MongoDB) : Except RoleError (Option Role) :=
  if name = "" then .error .EmptyName
  else
    match db.find_fails with
    | some m => .error (.MongoDbError m)
    | none => .ok (db.roles.find? (fun r => r.name = name))

/-- Modelled from the spec: `RoleRepository::find_by_id_vec` (source not
under review): the subset of stored roles whose id occurs in the vector. -/
def roleFindByIdVec (ids : List String) (db : MongoDB) : Except RoleError (List Role) :=
  match db.find_fails with
  | some m => .error (.MongoDbError m)
  | none => .ok (db.roles.filter (fun r => ids.contains r.id))

/-- Modelled from the spec: the flat permission presentation value. -/
structure SimplePermissionDto where
  id : String
  name : String
  description : String
  deriving DecidableEq, Repr

/-- Conversion `SimplePermissionDto::from(Permission)`. -/
def SimplePermissionDto.fromPermission (p : Permission) : SimplePermissionDto :=
  { id := p.id, name := p.name, description := p.description }

/-- Modelled from the spec: the role presentation value; `permissions` starts
absent and is only filled by the assembler. -/
structure SimpleRoleDto where
  id : String
  name : String
  permissions : Option (List SimplePermissionDto)
  deriving DecidableEq, Repr

/-- Conversion `SimpleRoleDto::from(Role)`: the permission list starts
absent. -/
def SimpleRoleDto.fromRole (r : Role) : SimpleRoleDto :=
  { id := r.id, name := r.name, permissions := none }

/-- Modelled from the spec: the user presentation value; `roles` starts
absent and is only filled by the assembler. -/
structure SimpleUserDto where
  id : String
  username : String
  email : String
  first_name : String
  last_name : String
  roles : Option (List SimpleRoleDto)
  deriving DecidableEq, Repr

/-- Conversion `SimpleUserDto::from(User)`: the role list starts absent. -/
def SimpleUserDto.fromUser (u : User) : SimpleUserDto :=
  { id := u.id, username := u.username, email := u.email,
    first_name := u.first_name, last_name := u.last_name, roles := none }

/-- Error type of the DTO assembler, mirroring `ConvertError` as used in
`authentication_controller.rs`: it reports which tier of the resolution
failed. -/
inductive ConvertError where
  | RoleError (e : RoleError)
  | PermissionError (e : PermError)
  deriving DecidableEq, Repr

/-- Assembly of one role DTO in `convert_user_to_simple_dto`: when the role
references permission ids they are resolved through the permission lookup,
and a non-empty result list is attached; an empty result leaves the
permission list absent. -/
def roleDtoOfRole (r : Role) (db : MongoDB) : Except ConvertError SimpleRoleDto :=
  match r.permissions with
  | none => .ok (SimpleRoleDto.fromRole r)
  | some pids =>
    match permRepoFindByIdVec pids db with
    | .error e => .error (.PermissionError e)
    | .ok perms =>
      let pl := perms.map SimplePermissionDto.fromPermission
      if pl.isEmpty then .ok (SimpleRoleDto.fromRole r)
      else .ok { SimpleRoleDto.fromRole r with permissions := some pl }

/-- Assembly of the role DTO list of `convert_user_to_simple_dto`; any
resolution failure aborts the whole assembly. -/
def buildRoleDtos (db : MongoDB) : List Role → Except ConvertError (List SimpleRoleDto)
  | [] => .ok []
  | r :: rs =>
    match roleDtoOfRole r db with
    | .error e => .error e
    | .ok d =>
      match buildRoleDtos db rs with
      | .error e => .error e
      | .ok ds => .ok (d :: ds)

/-- The DTO assembler `convert_user_to_simple_dto` of
`authentication_controller.rs`: resolves the user's role ids, then each
role's permission ids, attaching non-empty sub-lists; an absent role set or
an empty resolution leaves the role list absent. -/
def convertUserToSimpleDto (user : User) (db : MongoDB) : Except ConvertError SimpleUserDto :=
  let user_dto := SimpleUserDto.fromUser user
  match user.roles with
  | none => .ok user_dto
  | some roleIds =>
    match roleFindByIdVec roleIds db with
    | .error e => .error (.RoleError e)
    | .ok roles =>
      if roles.isEmpty then .ok user_dto
      else
        match buildRoleDtos db roles with
        | .error e => .error e
        | .ok ds => .ok { user_dto with roles := some ds }

/-- The token capability consumed by the gateway: `verify(token)` yields the
subject or an undifferentiated failure, `generate(subject)` yields a signed
token when issuance succeeds (mirroring `JwtService` at its boundary). -/
structure Jwt where
  verify : String → Except String String
  generate : String → Option String

/-- The salted password-hash capability at its boundary: salt parsing
(`SaltString::from_b64`) and deterministic hashing
(`Argon2::hash_password`), each able to fail. -/
structure Hasher where
  parseSalt : String → Option String
  hashPassword : String → String → Option String

/-- The process configuration handed to the gateway handlers: the
process-wide salt plus the token and hashing capabilities. -/
structure Config where
  salt : String
  jwt : Jwt
  hasher : Hasher

/-- The login request body `{username, password}`. -/
structure LoginRequest where
  username : String
  password : String
  deriving DecidableEq, Repr

/-- The registration request body, mirroring `CreateUser` in
`src/web/dto/user/create_user.rs`. -/
structure CreateUser where
  username : String
  email : String
  first_name : String
  last_name : String
  password : String
  roles : Option (List String)
  deriving DecidableEq, Repr

/-- Conversion `User::from(CreateUser)` of `src/repository/user/user.rs`: a
freshly generated id, the current timestamp for both `created_at` and
`updated_at`, and `enabled := true`; id and timestamp are supplied by the
environment. -/
def User.fromCreate (value : CreateUser) (id now : String) : User :=
  { id := id, username := value.username, email := value.email,
    first_name := value.first_name, last_name := value.last_name,
    password := value.password, roles := value.roles,
    created_at := now, updated_at := now, enabled := true }

/-- Response bodies produced by the three gateway endpoints, one constructor
per distinct serialized payload shape. -/
inductive RespBody where
  | empty
  | jsonMsg (s : String)
  | jsonBadRequest (message : String)
  | jsonInternalError (message : String)
  | jsonLogin (token : String)
  | jsonUser (u : SimpleUserDto)
  deriving DecidableEq, Repr

/-- An HTTP response: status code and body. -/
structure HttpResp where
  status : Nat
  body : RespBody
  deriving DecidableEq, Repr

/-- The `POST /login` handler of `authentication_controller.rs`: empty-field
validation with descriptive 400 bodies; an unknown username, a lookup
failure, a password-hash mismatch or a disabled account all yield the bare
400 response; salt/hash failures yield 500; on success a token with the
user's email as subject. -/
def login (cfg : Config) (req : LoginRequest) (db : MongoDB) : HttpResp :=
  if req.username = "" then ⟨400, .jsonMsg "Username is required"⟩
  else if req.password = "" then ⟨400, .jsonMsg "Password is required"⟩
  else
    match userFindByUsername req.username db with
    | .error _ => ⟨400, .empty⟩
    | .ok none => ⟨400, .empty⟩
    | .ok (some user) =>
      match cfg.hasher.parseSalt cfg.salt with
      | none => ⟨500, .jsonInternalError "Failed to generate salt"⟩
      | some salt =>
        match cfg.hasher.hashPassword salt req.password with
        | none => ⟨500, .jsonInternalError "Failed to hash password"⟩
        | some password_hash =>
          if password_hash ≠ user.password ∨ user.enabled = false then ⟨400, .empty⟩
          else
            match cfg.jwt.generate user.email with
            | some t => ⟨200, .jsonLogin t⟩
            | none => ⟨500, .jsonInternalError "Failed to generate JWT token"⟩

/-- The `POST /register` handler of `authentication_controller.rs`:
empty-field validation with 400; DEFAULT-role resolution (absence is
non-fatal, a lookup failure is 500); password hashing; then user creation,
where ANY creation error — including a duplicate username or email — is
serialized into a 500 response carrying the error's display string. -/
def register (cfg : Config) (req : CreateUser) (db : MongoDB) : HttpResp × MongoDB :=
  if req.username = "" then (⟨400, .jsonBadRequest "Empty usernames are not allowed"⟩, db)
  else if req.password = "" then (⟨400, .jsonBadRequest "Empty passwords are not allowed"⟩, db)
  else if req.email = "" then (⟨400, .jsonBadRequest "Empty email addresses are not allowed"⟩, db)
  else
    match roleFindByName "DEFAULT" db with
    | .error e => (⟨500, .jsonInternalError e.toMessage⟩, db)
    | .ok r =>
      let default_roles : Option (List String) :=
        match r with
        | some role => some [role.id]
        | none => none
      let user := User.fromCreate req db.fresh_id db.now
      match cfg.hasher.parseSalt cfg.salt with
      | none => (⟨500, .jsonInternalError "Failed to generate salt"⟩, db)
      | some salt =>
        match cfg.hasher.hashPassword salt user.password with
        | none => (⟨500, .jsonInternalError "Failed to hash password"⟩, db)
        | some password_hash =>
          let user := { user with password := password_hash, roles := default_roles }
          match userCreate user db with
          | (.ok _, db2) => (⟨200, .empty⟩, db2)
          | (.error e, db2) => (⟨500, .jsonInternalError e.toMessage⟩, db2)

/-- True when the first list is a prefix of the second, computed
structurally over characters. -/
def listIsPre : List Char → List Char → Bool
  | [], _ => true
  | _ :: _, [] => false
  | a :: as, b :: bs => a = b && listIsPre as bs

/-- The `auth_str.strip_prefix("Bearer ")` step shared by the current-user
handler and the token extractor: the remainder of the header after the
literal prefix, or `none` when the header does not start with it. -/
def stripBearer (s : String) : Option String :=
  if listIsPre "Bearer ".data s.data then some (String.mk (s.data.drop 7)) else none

/-- The `GET /current` handler of `authentication_controller.rs`: a missing
or malformed Authorization header, a token verification failure, a subject
resolving to no user, a lookup failure or an assembly failure each yield the
bare 403 response; otherwise the resolved user — with no check of its
`enabled` flag — is assembled and returned with 200. -/
def currentUser (cfg : Config) (auth_header : Option String) (db : MongoDB) : HttpResp :=
  match auth_header with
  | none => ⟨403, .empty⟩
  | some s =>
    match stripBearer s with
    | none => ⟨403, .empty⟩
    | some token =>
      match cfg.jwt.verify token with
      | .error _ => ⟨403, .empty⟩
      | .ok username =>
        match userFindByEmail username db with
        | .error _ => ⟨403, .empty⟩
        | .ok none => ⟨403, .empty⟩
        | .ok (some user) =>
          match convertUserToSimpleDto user db with
          | .ok u => ⟨200, .jsonUser u⟩
          | .error _ => ⟨403, .empty⟩

/-- Error type of the audited user service consumed by the token extractor:
either a wrapped repository error or a wrapped audit-ledger failure. -/
inductive UserServiceError where
  | Repo (e : UserRepoError)
  | Audit (e : AuditError)
  deriving DecidableEq, Repr

/-- Modelled from the spec: the audited `UserService::find_by_username` the
token extractor calls (user service source not under review; signature from
the call site in `user_id_extractor.rs`, audit gating from the spec's
service-layer contract): one audit record is written first, a ledger failure
aborts, then the repository lookup runs. -/
def userServiceFindByUsername (username user_id : String) (db : MongoDB) :
    Except UserServiceError (Option User) × MongoDB :=
  match auditCreate (Audit.new user_id .Read username .UserName .UserRes
      db.fresh_id db.now) db with
  | (.error e, db1) => (.error (.Audit e), db1)
  | (.ok _, db1) =>
    (match userFindByUsername username db1 with
     | .error e => .error (.Repo e)
     | .ok r => .ok r, db1)

/-- The extractor `get_user_id_from_token` of
`src/web/extractors/user_id_extractor.rs`: requires a well-formed Bearer
header and a verifying token, then resolves the token subject BY USERNAME
through the audited user service with actor "AUTH-RS"; every failure
collapses to `none`. -/
def getUserIdFromToken (cfg : Config) (auth_header : Option String) (db : MongoDB) :
    Option String :=
  match auth_header with
  | none => none
  | some s =>
    match stripBearer s with
    | none => none
    | some token =>
      match cfg.jwt.verify token with
      | .error _ => none
      | .ok subject =>
        match userServiceFindByUsername subject "AUTH-RS" db with
        | (.ok (some u), _) => some u.id
        | (.ok none, _) => none
        | (.error _, _) => none

/-- A BSON value as needed by the serialized user document: strings, bools,
string arrays and null. -/
inductive Bson where
  | str (s : String)
  | boolVal (b : Bool)
  | arr (l : List String)
  | nullVal
  deriving DecidableEq, Repr

/-- Serialization of an optional id list into a BSON value. -/
def bsonOfRoles : Option (List String) → Bson
  | none => .nullVal
  | some l => .arr l

/-- The serialized user document, with the exact key names produced by the
serde renames on the `User` struct of `src/repository/user/user.rs`. -/
def userToDoc (u : User) : List (String × Bson) :=
  [("_id", .str u.id),
   ("username", .str u.username),
   ("email", .str u.email),
   ("firstName", .str u.first_name),
   ("lastName", .str u.last_name),
   ("password", .str u.password),
   ("roles", bsonOfRoles u.roles),
   ("createdAt", .str u.created_at),
   ("updatedAt", .str u.updated_at),
   ("enabled", .boolVal u.enabled)]

/-- The `$set` document built by `UserRepository::update`, with its exact key
names: camelCase for `firstName` and `lastName` but the snake_case key
`updated_at` for the refreshed timestamp. -/
def updateSetDoc (u : User) (now : String) : List (String × Bson) :=
  [("username", .str u.username),
   ("email", .str u.email),
   ("firstName", .str u.first_name),
   ("lastName", .str u.last_name),
   ("roles", bsonOfRoles u.roles),
   ("updated_at", .str now),
   ("enabled", .boolVal u.enabled)]

/-- MongoDB `$set` semantics for one key: replace the value of an existing
key, or append the key when absent. -/
def setField (doc : List (String × Bson)) (k : String) (v : Bson) : List (String × Bson) :=
  if doc.any (fun kv => kv.1 = k) then
    doc.map (fun kv => if kv.1 = k then (k, v) else kv)
  else doc ++ [(k, v)]

/-- MongoDB `$set` semantics for a whole update document. -/
def applySet (doc upd : List (String × Bson)) : List (String × Bson) :=
  upd.foldl (fun d kv => setField d kv.1 kv.2) doc

/-- The stored document resulting from a successful `UserRepository::update`
of the stored user `stored` with payload `u` at time `now`. -/
def storedDocAfterUpdate (stored u : User) (now : String) : List (String × Bson) :=
  applySet (userToDoc stored) (updateSetDoc u now)

/-- Lookup of a key in a serialized document. -/
def docGet (doc : List (String × Bson)) (k : String) : Option Bson :=
  (doc.find? (fun kv => kv.1 = k)).map (fun kv => kv.2)

/-- Uniqueness of a natural-key projection across a user list: any two
stored users agreeing on the projection are the same user. The data model
declares this invariant for id, username and email. -/
@[reducible] def UniqueBy (f : User → String) (us : List User) : Prop :=
  ∀ a ∈ us, ∀ b ∈ us, f a = f b → a = b

/-- An enabled user with known password hash, used as concrete store
content. -/
def alice : User :=
  { id := "u1", username := "alice", email := "alice@x.com",
    first_name := "Alice", last_name := "Liddell",
    password := "HASH:salt:pw1", roles := none,
    created_at := "2024-01-01T00:00:00Z", updated_at := "2024-01-01T00:00:00Z",
    enabled := true }

/-- A DISABLED user with known password hash, used as concrete store
content. -/
def bob : User :=
  { id := "u2", username := "bob", email := "bob@x.com",
    first_name := "Bob", last_name := "Builder",
    password := "HASH:salt:pw2", roles := none,
    created_at := "2024-01-01T00:00:00Z", updated_at := "2024-01-01T00:00:00Z",
    enabled := false }

/-- A fresh user not colliding with `alice` or `bob`, used for creation
scenarios. -/
def carol : User :=
  { id := "u9", username := "carol", email := "carol@x.com",
    first_name := "Carol", last_name := "C",
    password := "HASH:salt:pw9", roles := none,
    created_at := "2024-03-03T00:00:00Z", updated_at := "2024-03-03T00:00:00Z",
    enabled := true }

/-- A healthy database state holding the given collections: every failure
knob is off. -/
def baseDb (us : List User) (rs : List Role) (ps : List Permission) : MongoDB :=
  { users := us, roles := rs, permissions := ps, audits := [],
    now := "2024-02-02T00:00:00Z", fresh_id := "generated-1",
    find_fails := none, collect_fails := none, insert_fails := none,
    insert_dropped := false, update_fails := none, delete_fails := none,
    audit_fails := none }

/-- A healthy store holding `alice` and `bob`. -/
def dbAliceBob : MongoDB := baseDb [alice, bob] [] []

/-- A deterministic test hasher: the salt parses to itself and hashing is
total and injective on its rendering. -/
def hasherTest : Hasher :=
  { parseSalt := fun s => some s,
    hashPassword := fun s p => some ("HASH:" ++ s ++ ":" ++ p) }

/-- A token capability whose only verifying tokens name the emails of `bob`
and of `userB` below, mirroring what login would issue for them. -/
def jwtTest : Jwt :=
  { verify := fun t =>
      if t = "tok-bob" then .ok "bob@x.com"
      else if t = "tok-cross" then .ok "x@y.com"
      else if t = "tok-alice-name" then .ok "alice"
      else .error "InvalidToken",
    generate := fun s =>
      if s = "bob@x.com" then some "tok-bob"
      else if s = "x@y.com" then some "tok-cross"
      else none }

/-- The test configuration shared by the gateway scenarios. -/
def cfgTest : Config := { salt := "salt", jwt := jwtTest, hasher := hasherTest }

/-- A sample permission for the audited permission-service scenarios. -/
def permA : Permission := { id := "p1", name := "perm.read", description := "read stuff" }

/-- A healthy store holding only `permA`. -/
def dbPerm : MongoDB := baseDb [] [] [permA]

/-- The same store with the audit ledger down. -/
def dbAuditDown : MongoDB := { dbPerm with audit_fails := some "ledger down" }

/-- A store whose cursor collection fails while the initial find succeeds. -/
def dbCollectFail : MongoDB := { baseDb [alice] [] [] with collect_fails := some "cursor io error" }

/-- A store whose find primitive fails. -/
def dbFindFail : MongoDB := { baseDb [alice] [] [] with find_fails := some "conn reset" }

/-- A store whose delete primitive fails. -/
def dbDeleteFail : MongoDB := { baseDb [alice] [] [] with delete_fails := some "conn reset" }

/-- A store whose insert primitive fails. -/
def dbInsertFail : MongoDB := { baseDb [alice] [] [] with insert_fails := some "conn reset" }

/-- A store whose find-and-update primitive fails. -/
def dbUpdateFail : MongoDB := { baseDb [alice] [] [] with update_fails := some "conn reset" }

/-- The duplicate-username registration request: `alice` is already taken. -/
def reqDupAlice : CreateUser :=
  { username := "alice", email := "fresh@x.com", first_name := "F",
    last_name := "L", password := "pw9", roles := none }

/-- Login request: existing enabled user, wrong password. -/
def reqWrongPw : LoginRequest := { username := "alice", password := "wrongpw" }

/-- Login request: disabled user, CORRECT password. -/
def reqDisabled : LoginRequest := { username := "bob", password := "pw2" }

/-- Login request: unknown username. -/
def reqUnknown : LoginRequest := { username := "mallory", password := "pw" }

/-- A user whose username happens to equal the EMAIL of another user
(`userB`); usernames and emails are still each unique across the store. -/
def userA : User :=
  { id := "idA", username := "x@y.com", email := "a@a.com",
    first_name := "A", last_name := "A", password := "h1", roles := none,
    created_at := "2024-01-01T00:00:00Z", updated_at := "2024-01-01T00:00:00Z",
    enabled := true }

/-- A user whose email is `userA`'s username and whose username differs from
its own email. -/
def userB : User :=
  { id := "idB", username := "bobby", email := "x@y.com",
    first_name := "B", last_name := "B", password := "h2", roles := none,
    created_at := "2024-01-01T00:00:00Z", updated_at := "2024-01-01T00:00:00Z",
    enabled := true }

/-- A healthy store holding `userA` and `userB`. -/
def dbCross : MongoDB := baseDb [userA, userB] [] []

/-- The update payload used for the timestamp scenario: `alice` with a new
first name, applied at a strictly later time. -/
def alicePayload : User := { alice with first_name := "Alicia" }

/-- A healthy store holding only the disabled user `bob`. -/
def dbBobOnly : MongoDB := baseDb [bob] [] []

/-- The database state right after a successful ledger write of `a`: the
record is appended to the audit collection and nothing else changes. -/
def dbAudited (db : MongoDB) (a : Audit) : MongoDB :=
  { db with audits := db.audits ++ [a] }

/-- C10: for every non-empty id, user repository delete returns Ok
regardless of whether a user with that id exists — deleting a nonexistent
user is not reported as NotFound — while an empty id yields the validation
error and a store failure is the only other error path. -/
theorem user_delete_ok_regardless_of_existence (id : String) (db : MongoDB) :
    (id = "" → userDelete id db = (.error .EmptyId, db)) ∧
    (id ≠ "" → db.delete_fails = none →
      userDelete id db = (.ok (), { db with users := db.users.filter (fun w => w.id ≠ id) })) ∧
    (id ≠ "" → db.delete_fails = none → (∀ w ∈ db.users, w.id ≠ id) →
      userDelete id db = (.ok (), db)) ∧
    (∀ m, id ≠ "" → db.delete_fails = some m →
      userDelete id db = (.error (.MongoDbError m), db)) := by
  have hb : ∀ (_ : id ≠ "") (_ : db.delete_fails = none),
      userDelete id db = (.ok (), { db with users := db.users.filter (fun w => w.id ≠ id) }) := by
    intro h hd
    simp [userDelete, h, hd]
  refine ⟨?_, fun h hd => hb h hd, ?_, ?_⟩
  · intro h
    simp [userDelete, h]
  · intro h hd hnone
    have hf : db.users.filter (fun w => w.id ≠ id) = db.users := by
      rw [List.filter_eq_self]
      intro a ha
      simpa using hnone a ha
    rw [hb h hd, hf]
  · intro m h hd
    simp [userDelete, h, hd]

/-- Witness for C10: deleting an id that no stored user has succeeds with an
unchanged store, and the empty id is rejected with the validation error. -/
theorem user_delete_ok_regardless_of_existence_witness :
    userDelete "zzz" dbAliceBob = (.ok (), dbAliceBob) ∧
    userDelete "" dbAliceBob = (.error .EmptyId, dbAliceBob) := by
  exact ⟨(user_delete_ok_regardless_of_existence "zzz" dbAliceBob).2.2.1
          (by decide) rfl (by decide),
        (user_delete_ok_regardless_of_existence "" dbAliceBob).1 rfl⟩

/-- C7 counterexample: on a store whose initial find succeeds but whose
cursor collection fails, `find_all` returns the empty list — the store
failure is silently replaced by a default value instead of being wrapped and
propagated. -/
theorem find_all_swallows_collect_failure :
    dbCollectFail.collect_fails = some "cursor io error" ∧
    dbCollectFail.users = [alice] ∧
    userFindAll dbCollectFail = .ok [] := by
  exact ⟨rfl, rfl, rfl⟩

/-- A lookup hit never counts as a collision when every user matching the
predicate carries the updating entity's own id. -/
theorem clashesWithOther_find?_false (p : User → Bool) (us : List User) (id : String)
    (h : ∀ w ∈ us, p w = true → w.id = id) :
    clashesWithOther (us.find? p) id = false := by
  cases hf : us.find? p with
  | none => rfl
  | some w =>
    have h1 := List.find?_some hf
    have h2 := List.mem_of_find?_eq_some hf
    simp [clashesWithOther, h w h2 h1]

/-- A lookup hit counts as a collision when some user matches the predicate
with a different id and the predicate identifies users uniquely. -/
theorem clashesWithOther_find?_true (p : User → Bool) (us : List User) (id : String)
    (w : User) (hm : w ∈ us) (hp : p w = true) (hne : w.id ≠ id)
    (huniq : ∀ a ∈ us, ∀ b ∈ us, p a = true → p b = true → a = b) :
    clashesWithOther (us.find? p) id = true := by
  have hsome : (us.find? p).isSome := List.find?_isSome.mpr ⟨w, hm, hp⟩
  obtain ⟨w', hw'⟩ := Option.isSome_iff_exists.mp hsome
  have h1 := List.find?_some hw'
  have h2 := List.mem_of_find?_eq_some hw'
  have hww : w' = w := huniq w' h2 w hm h1 hp
  rw [hw']
  simp [clashesWithOther, hww, hne]

/-- C7 amended: store failures of the find, insert, find-and-update and
delete primitives are wrapped into the single backend error variant and
propagated unchanged by every user repository operation that reaches them —
find_all, find_by_id, find_by_username, find_by_email, create (once its
pre-checks pass), update (once its pre-checks pass) and delete — EXCEPT that
a failure while collecting the cursor of `find_all` is swallowed and
replaced by the empty list. -/
theorem store_failures_wrapped_except_collect (db : MongoDB) (m id : String) (u : User) :
    (db.find_fails = some m → userFindAll db = .error (.MongoDbError m)) ∧
    (db.find_fails = some m → id ≠ "" → userFindById id db = .error (.MongoDbError m)) ∧
    (db.find_fails = none → db.collect_fails = some m → userFindAll db = .ok []) ∧
    (db.delete_fails = some m → id ≠ "" →
      userDelete id db = (.error (.MongoDbError m), db)) ∧
    (db.find_fails = some m → u.username ≠ "" →
      userFindByUsername u.username db = .error (.MongoDbError m)) ∧
    (db.find_fails = some m → u.email ≠ "" →
      userFindByEmail u.email db = .error (.MongoDbError m)) ∧
    (u.username ≠ "" → u.email ≠ "" → db.find_fails = none →
      (∀ w ∈ db.users, w.username ≠ u.username) → (∀ w ∈ db.users, w.email ≠ u.email) →
      db.insert_fails = some m →
      userCreate u db = (.error (.MongoDbError m), db)) ∧
    (u.username ≠ "" → u.email ≠ "" → db.find_fails = none →
      (∀ w ∈ db.users, w.username = u.username → w.id = u.id) →
      (∀ w ∈ db.users, w.email = u.email → w.id = u.id) →
      db.update_fails = some m →
      userUpdate u db = (.error (.MongoDbError m), db)) := by
  refine ⟨?_, ?_, ?_, ?_, ?_, ?_, ?_, ?_⟩
  · intro h
    simp [userFindAll, h]
  · intro h hid
    simp [userFindById, h, hid]
  · intro h hc
    simp [userFindAll, h, hc]
  · intro h hid
    simp [userDelete, h, hid]
  · intro h hu
    simp [userFindByUsername, h, hu]
  · intro h he
    simp [userFindByEmail, h, he]
  · intro hu he hff hnou hnoe hins
    have hU0 : db.users.find? (fun w => w.username = u.username) = none :=
      List.find?_eq_none.mpr (fun x hx => by simpa using hnou x hx)
    have hE0 : db.users.find? (fun w => w.email = u.email) = none :=
      List.find?_eq_none.mpr (fun x hx => by simpa using hnoe x hx)
    simp [userCreate, userFindByUsername, userFindByEmail, hu, he, hff, hU0, hE0, hins]
  · intro hu he hff hnou hnoe hupd
    have hfindU : userFindByUsername u.username db
        = .ok (db.users.find? (fun w => w.username = u.username)) := by
      simp [userFindByUsername, hu, hff]
    have hfindE : userFindByEmail u.email db
        = .ok (db.users.find? (fun w => w.email = u.email)) := by
      simp [userFindByEmail, he, hff]
    have hclU : clashesWithOther (db.users.find? (fun x => x.username = u.username)) u.id
        = false := by
      refine clashesWithOther_find?_false _ _ _ ?_
      intro x hx hpx
      simp only [decide_eq_true_eq] at hpx
      exact hnou x hx hpx
    have hclE : clashesWithOther (db.users.find? (fun x => x.email = u.email)) u.id
        = false := by
      refine clashesWithOther_find?_false _ _ _ ?_
      intro x hx hpx
      simp only [decide_eq_true_eq] at hpx
      exact hnoe x hx hpx
    simp [userUpdate, hfindU, hfindE, hclU, hclE, hupd]

/-- Witness for C7 amended: the branches at concrete stores — wrapped find
failure, swallowed collect failure, wrapped delete failure, wrapped insert
failure during create, wrapped find-and-update failure during update. -/
theorem store_failures_wrapped_except_collect_witness :
    userFindAll dbFindFail = .error (.MongoDbError "conn reset") ∧
    userFindAll dbCollectFail = .ok [] ∧
    userDelete "u1" dbDeleteFail = (.error (.MongoDbError "conn reset"), dbDeleteFail) ∧
    userCreate carol dbInsertFail = (.error (.MongoDbError "conn reset"), dbInsertFail) ∧
    userUpdate carol dbUpdateFail = (.error (.MongoDbError "conn reset"), dbUpdateFail) := by
  exact ⟨(store_failures_wrapped_except_collect dbFindFail "conn reset" "u1" carol).1 rfl,
        (store_failures_wrapped_except_collect dbCollectFail "cursor io error" "u1"
            carol).2.2.1 rfl rfl,
        (store_failures_wrapped_except_collect dbDeleteFail "conn reset" "u1"
            carol).2.2.2.1 rfl (by decide),
        (store_failures_wrapped_except_collect dbInsertFail "conn reset" "u1"
            carol).2.2.2.2.2.2.1 (by decide) (by decide) rfl (by decide) (by decide) rfl,
        (store_failures_wrapped_except_collect dbUpdateFail "conn reset" "u1"
            carol).2.2.2.2.2.2.2 (by decide) (by decide) rfl (by decide) (by decide) rfl⟩

/-- Creation aborts with UsernameAlreadyTaken whenever any stored user
already holds the username. -/
theorem userCreate_dup_username (u : User) (db : MongoDB)
    (hff : db.find_fails = none) (hu : u.username ≠ "")
    (hdup : ∃ w ∈ db.users, w.username = u.username) :
    userCreate u db = (.error .UsernameAlreadyTaken, db) := by
  obtain ⟨w, hwmem, hww⟩ := hdup
  have hsome : (db.users.find? (fun x => x.username = u.username)).isSome :=
    List.find?_isSome.mpr ⟨w, hwmem, by simp [hww]⟩
  obtain ⟨w', hw'⟩ := Option.isSome_iff_exists.mp hsome
  simp [userCreate, userFindByUsername, hu, hff, hw']

/-- Creation aborts with EmailAlreadyTaken whenever the username is free but
some stored user already holds the email. -/
theorem userCreate_dup_email (u : User) (db : MongoDB)
    (hff : db.find_fails = none) (hu : u.username ≠ "") (he : u.email ≠ "")
    (hnou : ∀ w ∈ db.users, w.username ≠ u.username)
    (hdup : ∃ w ∈ db.users, w.email = u.email) :
    userCreate u db = (.error .EmailAlreadyTaken, db) := by
  obtain ⟨w, hwmem, hww⟩ := hdup
  have hU0 : db.users.find? (fun w => w.username = u.username) = none :=
    List.find?_eq_none.mpr (fun x hx => by simpa using hnou x hx)
  have hsome : (db.users.find? (fun x => x.email = u.email)).isSome :=
    List.find?_isSome.mpr ⟨w, hwmem, by simp [hww]⟩
  obtain ⟨w', hw'⟩ := Option.isSome_iff_exists.mp hsome
  simp [userCreate, userFindByUsername, userFindByEmail, hu, he, hff, hU0, hw']

/-- C5: user creation fails UsernameAlreadyTaken when any stored user shares
the username (whatever its other fields), then EmailAlreadyTaken on a shared
email; otherwise it inserts, re-reads by id and returns the stored value,
failing UserNotFound when the re-read comes back empty, which happens
exactly when the write was dropped. -/
theorem user_create_duplicate_and_reread (u : User) (db : MongoDB)
    (hff : db.find_fails = none) (hu : u.username ≠ "") (he : u.email ≠ "") :
    ((∃ w ∈ db.users, w.username = u.username) →
      userCreate u db = (.error .UsernameAlreadyTaken, db)) ∧
    ((∀ w ∈ db.users, w.username ≠ u.username) → (∃ w ∈ db.users, w.email = u.email) →
      userCreate u db = (.error .EmailAlreadyTaken, db)) ∧
    ((∀ w ∈ db.users, w.username ≠ u.username) → (∀ w ∈ db.users, w.email ≠ u.email) →
      db.insert_fails = none → db.insert_dropped = false →
      u.id ≠ "" → (∀ w ∈ db.users, w.id ≠ u.id) →
      userCreate u db = (.ok u, { db with users := db.users ++ [u] })) ∧
    ((∀ w ∈ db.users, w.username ≠ u.username) → (∀ w ∈ db.users, w.email ≠ u.email) →
      db.insert_fails = none → db.insert_dropped = true →
      u.id ≠ "" → (∀ w ∈ db.users, w.id ≠ u.id) →
      userCreate u db = (.error .UserNotFound, db)) := by
  have hfindU : userFindByUsername u.username db
      = .ok (db.users.find? (fun w => w.username = u.username)) := by
    simp [userFindByUsername, hu, hff]
  have hfindE : userFindByEmail u.email db
      = .ok (db.users.find? (fun w => w.email = u.email)) := by
    simp [userFindByEmail, he, hff]
  refine ⟨?_, ?_, ?_, ?_⟩
  · intro hdup
    exact userCreate_dup_username u db hff hu hdup
  · intro hnou hdupe
    exact userCreate_dup_email u db hff hu he hnou hdupe
  · intro hnou hnoe hins hdrop hid hnoid
    have hU0 : db.users.find? (fun w => w.username = u.username) = none :=
      List.find?_eq_none.mpr (fun x hx => by simpa using hnou x hx)
    have hE0 : db.users.find? (fun w => w.email = u.email) = none :=
      List.find?_eq_none.mpr (fun x hx => by simpa using hnoe x hx)
    have hI0 : db.users.find? (fun w => w.id = u.id) = none :=
      List.find?_eq_none.mpr (fun x hx => by simpa using hnoid x hx)
    have hI : (db.users ++ [u]).find? (fun w => w.id = u.id) = some u := by
      simp [List.find?_append, hI0]
    simp [userCreate, hfindU, hfindE, hU0, hE0, hins, hdrop, userFindById, hid, hff, hI]
  · intro hnou hnoe hins hdrop hid hnoid
    have hU0 : db.users.find? (fun w => w.username = u.username) = none :=
      List.find?_eq_none.mpr (fun x hx => by simpa using hnou x hx)
    have hE0 : db.users.find? (fun w => w.email = u.email) = none :=
      List.find?_eq_none.mpr (fun x hx => by simpa using hnoe x hx)
    have hI0 : db.users.find? (fun w => w.id = u.id) = none :=
      List.find?_eq_none.mpr (fun x hx => by simpa using hnoid x hx)
    simp [userCreate, hfindU, hfindE, hU0, hE0, hins, hdrop, userFindById, hid, hff, hI0]

/-- Witness for C5: creating a second "alice" fails UsernameAlreadyTaken
even though every other field differs, and creating the fresh user `carol`
succeeds, storing her. -/
theorem user_create_duplicate_and_reread_witness :
    userCreate { carol with username := "alice" } dbAliceBob
      = (.error .UsernameAlreadyTaken, dbAliceBob) ∧
    userCreate carol dbAliceBob
      = (.ok carol, { dbAliceBob with users := dbAliceBob.users ++ [carol] }) := by
  exact ⟨(user_create_duplicate_and_reread { carol with username := "alice" } dbAliceBob
            rfl (by decide) (by decide)).1 (by decide),
        (user_create_duplicate_and_reread carol dbAliceBob
            rfl (by decide) (by decide)).2.2.1
          (by decide) (by decide) rfl rfl (by decide) (by decide)⟩

/-- C6: user update fails DuplicateKey exactly for a username or email held
by a user with a DIFFERENT id; with no such collision it fails UserNotFound
when no user carries the entity's id, and succeeds — returning the pre-image
and rewriting the first matching document — when one does, which includes
updating a user to its own current username and email. Stated over stores
satisfying the documented uniqueness invariant of id, username and email. -/
theorem user_update_excludes_own_id (u : User) (db : MongoDB)
    (hff : db.find_fails = none) (huf : db.update_fails = none)
    (hu : u.username ≠ "") (he : u.email ≠ "")
    (hUq : UniqueBy (fun w => w.username) db.users)
    (hEq : UniqueBy (fun w => w.email) db.users)
    (hIq : UniqueBy (fun w => w.id) db.users) :
    ((∃ w ∈ db.users, w.username = u.username ∧ w.id ≠ u.id) →
      userUpdate u db = (.error .UsernameAlreadyTaken, db)) ∧
    ((∀ w ∈ db.users, w.username = u.username → w.id = u.id) →
      (∃ w ∈ db.users, w.email = u.email ∧ w.id ≠ u.id) →
      userUpdate u db = (.error .EmailAlreadyTaken, db)) ∧
    ((∀ w ∈ db.users, w.username = u.username → w.id = u.id) →
      (∀ w ∈ db.users, w.email = u.email → w.id = u.id) →
      (∀ w ∈ db.users, w.id ≠ u.id) →
      userUpdate u db = (.error .UserNotFound, db)) ∧
    (∀ old, old ∈ db.users → old.id = u.id →
      (∀ w ∈ db.users, w.username = u.username → w.id = u.id) →
      (∀ w ∈ db.users, w.email = u.email → w.id = u.id) →
      userUpdate u db = (.ok old, { db with users := updateFirstById u db.users })) := by
  have hfindU : userFindByUsername u.username db
      = .ok (db.users.find? (fun w => w.username = u.username)) := by
    simp [userFindByUsername, hu, hff]
  have hfindE : userFindByEmail u.email db
      = .ok (db.users.find? (fun w => w.email = u.email)) := by
    simp [userFindByEmail, he, hff]
  refine ⟨?_, ?_, ?_, ?_⟩
  · rintro ⟨w, hm, hww, hne⟩
    have hcl : clashesWithOther (db.users.find? (fun x => x.username = u.username)) u.id
        = true := by
      refine clashesWithOther_find?_true _ _ _ w hm (by simp [hww]) hne ?_
      intro a ha b hb hpa hpb
      simp only [decide_eq_true_eq] at hpa hpb
      exact hUq a ha b hb (hpa.trans hpb.symm)
    simp [userUpdate, hfindU, hcl]
  · rintro hnou ⟨w, hm, hww, hne⟩
    have hclU : clashesWithOther (db.users.find? (fun x => x.username = u.username)) u.id
        = false := by
      refine clashesWithOther_find?_false _ _ _ ?_
      intro x hx hpx
      simp only [decide_eq_true_eq] at hpx
      exact hnou x hx hpx
    have hclE : clashesWithOther (db.users.find? (fun x => x.email = u.email)) u.id
        = true := by
      refine clashesWithOther_find?_true _ _ _ w hm (by simp [hww]) hne ?_
      intro a ha b hb hpa hpb
      simp only [decide_eq_true_eq] at hpa hpb
      exact hEq a ha b hb (hpa.trans hpb.symm)
    simp [userUpdate, hfindU, hfindE, hclU, hclE]
  · intro hnou hnoe hnoid
    have hclU : clashesWithOther (db.users.find? (fun x => x.username = u.username)) u.id
        = false := by
      refine clashesWithOther_find?_false _ _ _ ?_
      intro x hx hpx
      simp only [decide_eq_true_eq] at hpx
      exact hnou x hx hpx
    have hclE : clashesWithOther (db.users.find? (fun x => x.email = u.email)) u.id
        = false := by
      refine clashesWithOther_find?_false _ _ _ ?_
      intro x hx hpx
      simp only [decide_eq_true_eq] at hpx
      exact hnoe x hx hpx
    have hI0 : db.users.find? (fun w => w.id = u.id) = none :=
      List.find?_eq_none.mpr (fun x hx => by simpa using hnoid x hx)
    simp [userUpdate, hfindU, hfindE, hclU, hclE, huf, hI0]
  · intro old hm hid hnou hnoe
    have hclU : clashesWithOther (db.users.find? (fun x => x.username = u.username)) u.id
        = false := by
      refine clashesWithOther_find?_false _ _ _ ?_
      intro x hx hpx
      simp only [decide_eq_true_eq] at hpx
      exact hnou x hx hpx
    have hclE : clashesWithOther (db.users.find? (fun x => x.email = u.email)) u.id
        = false := by
      refine clashesWithOther_find?_false _ _ _ ?_
      intro x hx hpx
      simp only [decide_eq_true_eq] at hpx
      exact hnoe x hx hpx
    have hsome : (db.users.find? (fun w => w.id = u.id)).isSome :=
      List.find?_isSome.mpr ⟨old, hm, by simp [hid]⟩
    obtain ⟨f, hf⟩ := Option.isSome_iff_exists.mp hsome
    have h1 := List.find?_some hf
    have h2 := List.mem_of_find?_eq_some hf
    simp only [decide_eq_true_eq] at h1
    have hfe : f = old := hIq f h2 old hm (h1.trans hid.symm)
    simp [userUpdate, hfindU, hfindE, hclU, hclE, huf, hf, hfe]

/-- Witness for C6: updating `alice` to her own current username and email
(changing only the first name) succeeds, returns the pre-image and rewrites
her stored document. -/
theorem user_update_excludes_own_id_witness :
    userUpdate alicePayload dbAliceBob
      = (.ok alice, { dbAliceBob with users := updateFirstById alicePayload dbAliceBob.users }) := by
  exact (user_update_excludes_own_id alicePayload dbAliceBob rfl rfl
      (by decide) (by decide) (by decide) (by decide) (by decide)).2.2.2
    alice (by decide) (by decide) (by decide) (by decide)

/-- C3: with non-empty credentials, login against an existing enabled user
with a wrong password, login against a disabled user (even when the supplied
password hashes to the stored hash), and login with an unknown username all
produce the same bare 400 response — the three failures are identical and
mutually indistinguishable. -/
theorem login_failures_indistinguishable
    (cfg : Config) (db : MongoDB) (rW rD rU : LoginRequest)
    (uW uD : User) (s phW : String)
    (hWu : rW.username ≠ "") (hWp : rW.password ≠ "")
    (hDu : rD.username ≠ "") (hDp : rD.password ≠ "")
    (hUu : rU.username ≠ "") (hUp : rU.password ≠ "")
    (hfW : userFindByUsername rW.username db = .ok (some uW))
    (hfD : userFindByUsername rD.username db = .ok (some uD))
    (hfU : userFindByUsername rU.username db = .ok none)
    (hsalt : cfg.hasher.parseSalt cfg.salt = some s)
    (hhW : cfg.hasher.hashPassword s rW.password = some phW)
    (hhD : (cfg.hasher.hashPassword s rD.password).isSome)
    (_henW : uW.enabled = true) (hwrong : phW ≠ uW.password)
    (hdis : uD.enabled = false) :
    login cfg rW db = ⟨400, .empty⟩ ∧
    login cfg rD db = ⟨400, .empty⟩ ∧
    login cfg rU db = ⟨400, .empty⟩ := by
  refine ⟨?_, ?_, ?_⟩
  · simp [login, hWu, hWp, hfW, hsalt, hhW, hwrong]
  · obtain ⟨phD, hphD⟩ := Option.isSome_iff_exists.mp hhD
    simp [login, hDu, hDp, hfD, hsalt, hphD, hdis]
  · simp [login, hUu, hUp, hfU]

/-- Witness for C3: wrong password for enabled `alice`, correct password for
disabled `bob`, and the unknown username `mallory` all answer with the same
bare 400. -/
theorem login_failures_indistinguishable_witness :
    login cfgTest reqWrongPw dbAliceBob = ⟨400, .empty⟩ ∧
    login cfgTest reqDisabled dbAliceBob = ⟨400, .empty⟩ ∧
    login cfgTest reqUnknown dbAliceBob = ⟨400, .empty⟩ := by
  exact login_failures_indistinguishable cfgTest dbAliceBob reqWrongPw reqDisabled reqUnknown
    alice bob "salt" "HASH:salt:wrongpw"
    (by decide) (by decide) (by decide) (by decide) (by decide) (by decide)
    (by decide) (by decide) (by decide)
    rfl rfl (by decide) rfl (by decide) rfl

/-- C2: code-bug evaluation — a disabled user whose bearer token verifies
and whose subject resolves by email is answered with 200 and the assembled
DTO, not with the undifferentiated 403 the session-resolution contract
requires, because `current_user` never checks the `enabled` flag. -/
theorem current_user_disabled_gets_200 :
    bob.enabled = false ∧
    jwtTest.verify "tok-bob" = .ok bob.email ∧
    currentUser cfgTest (some "Bearer tok-bob") dbBobOnly
      = ⟨200, .jsonUser (SimpleUserDto.fromUser bob)⟩ ∧
    currentUser cfgTest (some "Bearer tok-bob") dbBobOnly ≠ ⟨403, .empty⟩ := by
  decide

/-- C8: code-bug evaluation — after a successful update at a later time, the
stored document's createdAt is unchanged (as specified) but its updatedAt is
ALSO unchanged: the refreshed timestamp lands under the stray snake_case key
`updated_at` because the `$set` document misses the serialized camelCase key
`updatedAt`. -/
theorem update_does_not_advance_updatedAt :
    docGet (storedDocAfterUpdate alice alicePayload "2024-02-02T00:00:00Z") "createdAt"
      = some (.str alice.created_at) ∧
    docGet (storedDocAfterUpdate alice alicePayload "2024-02-02T00:00:00Z") "updatedAt"
      = some (.str alice.updated_at) ∧
    alice.updated_at ≠ "2024-02-02T00:00:00Z" ∧
    docGet (storedDocAfterUpdate alice alicePayload "2024-02-02T00:00:00Z") "updated_at"
      = some (.str "2024-02-02T00:00:00Z") := by
  decide

/-- C4 counterexample: a registration whose username collides with the
stored user `alice` (all required fields non-empty, hashing healthy) is
answered with 500 carrying the repository message — not with the 400 the
claim asserts for duplicates. -/
theorem register_duplicate_counterexample :
    (∃ w ∈ dbAliceBob.users, w.username = reqDupAlice.username) ∧
    reqDupAlice.username ≠ "" ∧ reqDupAlice.email ≠ "" ∧ reqDupAlice.password ≠ "" ∧
    (register cfgTest reqDupAlice dbAliceBob).1
      = ⟨500, .jsonInternalError "Username already taken"⟩ ∧
    (register cfgTest reqDupAlice dbAliceBob).1.status ≠ 400 := by
  decide

/-- C4 amended: a registration colliding on username or email is answered
with 500 carrying the repository's duplicate message — the handler maps
every creation failure to 500 — while 400 is reserved for empty required
fields. -/
theorem register_duplicate_yields_500
    (cfg : Config) (req : CreateUser) (db : MongoDB) (s ph : String)
    (h1 : req.username ≠ "") (h2 : req.password ≠ "") (h3 : req.email ≠ "")
    (hff : db.find_fails = none)
    (hsalt : cfg.hasher.parseSalt cfg.salt = some s)
    (hhash : cfg.hasher.hashPassword s req.password = some ph) :
    ((∃ w ∈ db.users, w.username = req.username) →
      register cfg req db = (⟨500, .jsonInternalError "Username already taken"⟩, db)) ∧
    ((∀ w ∈ db.users, w.username ≠ req.username) → (∃ w ∈ db.users, w.email = req.email) →
      register cfg req db = (⟨500, .jsonInternalError "Email already taken"⟩, db)) ∧
    (req.username = "" →
      register cfg req db = (⟨400, .jsonBadRequest "Empty usernames are not allowed"⟩, db)) := by
  have hrole : roleFindByName "DEFAULT" db
      = .ok (db.roles.find? (fun r => r.name = "DEFAULT")) := by
    simp [roleFindByName, hff]
  refine ⟨?_, ?_, ?_⟩
  · intro hdup
    cases hr : db.roles.find? (fun r => r.name = "DEFAULT") with
    | none =>
      have hc := userCreate_dup_username
        { id := db.fresh_id, username := req.username, email := req.email,
          first_name := req.first_name, last_name := req.last_name, password := ph,
          roles := none, created_at := db.now, updated_at := db.now, enabled := true }
        db hff h1 hdup
      simp [register, h1, h2, h3, hrole, hr, hsalt, hhash, User.fromCreate, hc,
        UserRepoError.toMessage]
    | some role =>
      have hc := userCreate_dup_username
        { id := db.fresh_id, username := req.username, email := req.email,
          first_name := req.first_name, last_name := req.last_name, password := ph,
          roles := some [role.id], created_at := db.now, updated_at := db.now, enabled := true }
        db hff h1 hdup
      simp [register, h1, h2, h3, hrole, hr, hsalt, hhash, User.fromCreate, hc,
        UserRepoError.toMessage]
  · intro hnou hdupe
    cases hr : db.roles.find? (fun r => r.name = "DEFAULT") with
    | none =>
      have hc := userCreate_dup_email
        { id := db.fresh_id, username := req.username, email := req.email,
          first_name := req.first_name, last_name := req.last_name, password := ph,
          roles := none, created_at := db.now, updated_at := db.now, enabled := true }
        db hff h1 h3 hnou hdupe
      simp [register, h1, h2, h3, hrole, hr, hsalt, hhash, User.fromCreate, hc,
        UserRepoError.toMessage]
    | some role =>
      have hc := userCreate_dup_email
        { id := db.fresh_id, username := req.username, email := req.email,
          first_name := req.first_name, last_name := req.last_name, password := ph,
          roles := some [role.id], created_at := db.now, updated_at := db.now, enabled := true }
        db hff h1 h3 hnou hdupe
      simp [register, h1, h2, h3, hrole, hr, hsalt, hhash, User.fromCreate, hc,
        UserRepoError.toMessage]
  · intro h0
    simp [register, h0]

/-- Witness for C4 amended: the duplicate-email registration against `alice`
is answered with the email 500. -/
theorem register_duplicate_yields_500_witness :
    register cfgTest
      { username := "newname", email := "alice@x.com", first_name := "F",
        last_name := "L", password := "pw9", roles := none } dbAliceBob
      = (⟨500, .jsonInternalError "Email already taken"⟩, dbAliceBob) := by
  exact (register_duplicate_yields_500 cfgTest
      { username := "newname", email := "alice@x.com", first_name := "F",
        last_name := "L", password := "pw9", roles := none }
      dbAliceBob "salt" "HASH:salt:pw9"
      (by decide) (by decide) (by decide) rfl rfl rfl).2.1 (by decide) (by decide)

/-- The permission repository's create never touches the audit ledger. -/
theorem permRepoCreate_preserves_audits (p : Permission) (db : MongoDB) :
    ((permRepoCreate p db).2).audits = db.audits := by
  simp only [permRepoCreate]
  repeat' split
  all_goals simp

/-- The permission repository's update never touches the audit ledger. -/
theorem permRepoUpdate_preserves_audits (p : Permission) (db : MongoDB) :
    ((permRepoUpdate p db).2).audits = db.audits := by
  simp only [permRepoUpdate]
  repeat' split
  all_goals simp

/-- The permission repository's delete (with role detachment) never touches
the audit ledger. -/
theorem permRepoDelete_preserves_audits (id : String) (db : MongoDB) :
    ((permRepoDelete id db).2).audits = db.audits := by
  simp only [permRepoDelete]
  repeat' split
  all_goals simp

/-- C1: every permission-service operation (create, find_all, find_by_id,
find_by_name, find_by_id_vec, update, delete, search) first persists exactly
one audit record describing it; when the ledger write fails the operation
returns the wrapped audit failure and the state — audit ledger and
permission store alike — is untouched; when the write succeeds, the
repository operation runs on the post-audit state and its result is returned
unchanged, the ledger having grown by exactly that one record. -/
theorem permission_service_audit_gate
    (p : Permission) (ids : List String) (id name text user_id : String) (db : MongoDB) :
    (∀ m, db.audit_fails = some m →
      permServiceCreate p user_id db = (.error (.Audit (.MongoDbError m)), db) ∧
      permServiceFindAll user_id db = (.error (.Audit (.MongoDbError m)), db) ∧
      permServiceFindByIdVec ids user_id db = (.error (.Audit (.MongoDbError m)), db) ∧
      permServiceFindById id user_id db = (.error (.Audit (.MongoDbError m)), db) ∧
      permServiceFindByName name user_id db = (.error (.Audit (.MongoDbError m)), db) ∧
      permServiceUpdate p user_id db = (.error (.Audit (.MongoDbError m)), db) ∧
      permServiceDelete id user_id db = (.error (.Audit (.MongoDbError m)), db) ∧
      permServiceSearch text user_id db = (.error (.Audit (.MongoDbError m)), db)) ∧
    (db.audit_fails = none →
      (permServiceCreate p user_id db
          = permRepoCreate p (dbAudited db
              (Audit.new user_id .Create p.id .PermissionId .PermissionRes db.fresh_id db.now)) ∧
        ((permServiceCreate p user_id db).2).audits = db.audits
          ++ [Audit.new user_id .Create p.id .PermissionId .PermissionRes db.fresh_id db.now]) ∧
      (permServiceFindAll user_id db
          = (permRepoFindAll (dbAudited db
              (Audit.new user_id .Read "" .NoId .PermissionRes db.fresh_id db.now)),
             dbAudited db (Audit.new user_id .Read "" .NoId .PermissionRes db.fresh_id db.now)) ∧
        ((permServiceFindAll user_id db).2).audits = db.audits
          ++ [Audit.new user_id .Read "" .NoId .PermissionRes db.fresh_id db.now]) ∧
      (permServiceFindByIdVec ids user_id db
          = (permRepoFindByIdVec ids (dbAudited db
              (Audit.new user_id .Read (debugFormatIdVec ids) .PermissionIdVec .PermissionRes
                db.fresh_id db.now)),
             dbAudited db (Audit.new user_id .Read (debugFormatIdVec ids) .PermissionIdVec
                .PermissionRes db.fresh_id db.now)) ∧
        ((permServiceFindByIdVec ids user_id db).2).audits = db.audits
          ++ [Audit.new user_id .Read (debugFormatIdVec ids) .PermissionIdVec .PermissionRes
                db.fresh_id db.now]) ∧
      (permServiceFindById id user_id db
          = (permRepoFindById id (dbAudited db
              (Audit.new user_id .Read id .PermissionId .PermissionRes db.fresh_id db.now)),
             dbAudited db (Audit.new user_id .Read id .PermissionId .PermissionRes
                db.fresh_id db.now)) ∧
        ((permServiceFindById id user_id db).2).audits = db.audits
          ++ [Audit.new user_id .Read id .PermissionId .PermissionRes db.fresh_id db.now]) ∧
      (permServiceFindByName name user_id db
          = (permRepoFindByName name (dbAudited db
              (Audit.new user_id .Read name .PermissionName .PermissionRes db.fresh_id db.now)),
             dbAudited db (Audit.new user_id .Read name .PermissionName .PermissionRes
                db.fresh_id db.now)) ∧
        ((permServiceFindByName name user_id db).2).audits = db.audits
          ++ [Audit.new user_id .Read name .PermissionName .PermissionRes db.fresh_id db.now]) ∧
      (permServiceUpdate p user_id db
          = permRepoUpdate p (dbAudited db
              (Audit.new user_id .Update p.id .PermissionId .PermissionRes db.fresh_id db.now)) ∧
        ((permServiceUpdate p user_id db).2).audits = db.audits
          ++ [Audit.new user_id .Update p.id .PermissionId .PermissionRes db.fresh_id db.now]) ∧
      (permServiceDelete id user_id db
          = permRepoDelete id (dbAudited db
              (Audit.new user_id .Delete id .PermissionId .PermissionRes db.fresh_id db.now)) ∧
        ((permServiceDelete id user_id db).2).audits = db.audits
          ++ [Audit.new user_id .Delete id .PermissionId .PermissionRes db.fresh_id db.now]) ∧
      (permServiceSearch text user_id db
          = (permRepoSearch text (dbAudited db
              (Audit.new user_id .Search "" .PermissionSearch .PermissionRes db.fresh_id db.now)),
             dbAudited db (Audit.new user_id .Search "" .PermissionSearch .PermissionRes
                db.fresh_id db.now)) ∧
        ((permServiceSearch text user_id db).2).audits = db.audits
          ++ [Audit.new user_id .Search "" .PermissionSearch .PermissionRes db.fresh_id db.now])) := by
  constructor
  · intro m h
    refine ⟨?_, ?_, ?_, ?_, ?_, ?_, ?_, ?_⟩ <;>
      simp [permServiceCreate, permServiceFindAll, permServiceFindByIdVec, permServiceFindById,
        permServiceFindByName, permServiceUpdate, permServiceDelete, permServiceSearch,
        auditCreate, h]
  · intro h
    have hcrea : permServiceCreate p user_id db
        = permRepoCreate p (dbAudited db
            (Audit.new user_id .Create p.id .PermissionId .PermissionRes db.fresh_id db.now)) := by
      simp [permServiceCreate, auditCreate, h, dbAudited]
    have hupd : permServiceUpdate p user_id db
        = permRepoUpdate p (dbAudited db
            (Audit.new user_id .Update p.id .PermissionId .PermissionRes db.fresh_id db.now)) := by
      simp [permServiceUpdate, auditCreate, h, dbAudited]
    have hdel : permServiceDelete id user_id db
        = permRepoDelete id (dbAudited db
            (Audit.new user_id .Delete id .PermissionId .PermissionRes db.fresh_id db.now)) := by
      simp [permServiceDelete, auditCreate, h, dbAudited]
    refine ⟨⟨hcrea, ?_⟩, ⟨?_, ?_⟩, ⟨?_, ?_⟩, ⟨?_, ?_⟩, ⟨?_, ?_⟩, ⟨hupd, ?_⟩, ⟨hdel, ?_⟩, ⟨?_, ?_⟩⟩
    · rw [hcrea, permRepoCreate_preserves_audits]
      rfl
    · simp [permServiceFindAll, auditCreate, h, dbAudited]
    · simp [permServiceFindAll, auditCreate, h, dbAudited]
    · simp [permServiceFindByIdVec, auditCreate, h, dbAudited]
    · simp [permServiceFindByIdVec, auditCreate, h, dbAudited]
    · simp [permServiceFindById, auditCreate, h, dbAudited]
    · simp [permServiceFindById, auditCreate, h, dbAudited]
    · simp [permServiceFindByName, auditCreate, h, dbAudited]
    · simp [permServiceFindByName, auditCreate, h, dbAudited]
    · rw [hupd, permRepoUpdate_preserves_audits]
      rfl
    · rw [hdel, permRepoDelete_preserves_audits]
      rfl
    · simp [permServiceSearch, auditCreate, h, dbAudited]
    · simp [permServiceSearch, auditCreate, h, dbAudited]

/-- Witness for C1: with the ledger down, find_all aborts with the wrapped
audit failure and an untouched state; on the healthy store the same call
runs the repository listing on the post-audit state carrying exactly the one
new read record. -/
theorem permission_service_audit_gate_witness :
    permServiceFindAll "admin" dbAuditDown
      = (.error (.Audit (.MongoDbError "ledger down")), dbAuditDown) ∧
    permServiceFindAll "admin" dbPerm
      = (permRepoFindAll (dbAudited dbPerm
          (Audit.new "admin" .Read "" .NoId .PermissionRes dbPerm.fresh_id dbPerm.now)),
         dbAudited dbPerm
          (Audit.new "admin" .Read "" .NoId .PermissionRes dbPerm.fresh_id dbPerm.now)) := by
  exact ⟨((permission_service_audit_gate permA [] "i" "n" "t" "admin" dbAuditDown).1
            "ledger down" rfl).2.1,
         ((permission_service_audit_gate permA [] "i" "n" "t" "admin" dbPerm).2 rfl).2.1.1⟩

/-- With a well-formed header, a verifying token and a non-empty subject,
the extractor is the id of the first stored user whose username equals the
subject, over a healthy store. -/
theorem getUserIdFromToken_eval (cfg : Config) (s tok subj : String) (db : MongoDB)
    (haud : db.audit_fails = none) (hff : db.find_fails = none)
    (hsb : stripBearer s = some tok) (hv : cfg.jwt.verify tok = .ok subj)
    (hsubj : subj ≠ "") :
    getUserIdFromToken cfg (some s) db
      = (db.users.find? (fun w => w.username = subj)).map (fun u => u.id) := by
  cases hfind : db.users.find? (fun w => w.username = subj) <;>
    simp [getUserIdFromToken, userServiceFindByUsername, auditCreate, haud,
      userFindByUsername, hff, hsb, hv, hsubj, hfind]

/-- A verifying token whose subject is empty resolves to none: the
empty-username validation of the repository rejects the lookup. -/
theorem getUserIdFromToken_empty_subject (cfg : Config) (s tok : String) (db : MongoDB)
    (haud : db.audit_fails = none)
    (hsb : stripBearer s = some tok) (hv : cfg.jwt.verify tok = .ok "") :
    getUserIdFromToken cfg (some s) db = none := by
  simp [getUserIdFromToken, userServiceFindByUsername, auditCreate, haud,
    userFindByUsername, hsb, hv]

/-- C9 counterexample: login issues tokens whose subject is the user's
EMAIL; the token issued for `userB` (username "bobby", email "x@y.com")
does NOT resolve to none — the extractor resolves the subject BY USERNAME
and finds `userA`, whose username is that very email, yielding the WRONG
user's id. -/
theorem extractor_cross_user_counterexample :
    jwtTest.generate userB.email = some "tok-cross" ∧
    jwtTest.verify "tok-cross" = .ok userB.email ∧
    userB.username ≠ userB.email ∧
    getUserIdFromToken cfgTest (some "Bearer tok-cross") dbCross = some userA.id ∧
    getUserIdFromToken cfgTest (some "Bearer tok-cross") dbCross ≠ none := by
  decide

/-- C9 amended: over a healthy store with non-empty, unique usernames, the
extractor returns Some(i) iff the request carries a well-formed Bearer
token that verifies and some stored user's USERNAME equals the token's
subject, i being that user's id; consequently a login token (subject = the
user's email) for a user whose username differs from their email resolves
to none PROVIDED no stored user's username equals that email — otherwise it
resolves to that other user's id, as the counterexample shows. -/
theorem extractor_resolves_subject_by_username
    (cfg : Config) (hdr : Option String) (db : MongoDB) (i : String)
    (haud : db.audit_fails = none) (hff : db.find_fails = none)
    (hne : ∀ w ∈ db.users, w.username ≠ "")
    (hUq : UniqueBy (fun w => w.username) db.users) :
    (getUserIdFromToken cfg hdr db = some i ↔
      ∃ s, hdr = some s ∧ ∃ tok, stripBearer s = some tok ∧
        ∃ subj, cfg.jwt.verify tok = .ok subj ∧
          ∃ u ∈ db.users, u.username = subj ∧ u.id = i) ∧
    (∀ s tok u, hdr = some s → stripBearer s = some tok → u ∈ db.users →
      cfg.jwt.verify tok = .ok u.email → u.username ≠ u.email →
      (∀ w ∈ db.users, w.username ≠ u.email) →
      getUserIdFromToken cfg hdr db = none) := by
  constructor
  · cases hdr with
    | none => simp [getUserIdFromToken]
    | some s =>
      cases hsb : stripBearer s with
      | none => simp [getUserIdFromToken, hsb]
      | some tok =>
        cases hv : cfg.jwt.verify tok with
        | error e => simp [getUserIdFromToken, hsb, hv]
        | ok subj =>
          by_cases hsubj : subj = ""
          · subst hsubj
            rw [getUserIdFromToken_empty_subject cfg s tok db haud hsb hv]
            constructor
            · intro hL
              simp at hL
            · rintro ⟨s1, hs1, tok1, htok1, subj1, hv1, u, hm, hu1, hid⟩
              obtain rfl : s1 = s := (Option.some.inj hs1).symm
              rw [hsb] at htok1
              obtain rfl : tok1 = tok := (Option.some.inj htok1).symm
              rw [hv] at hv1
              obtain rfl : subj1 = "" := (Except.ok.inj hv1).symm
              exact absurd hu1 (hne u hm)
          · rw [getUserIdFromToken_eval cfg s tok subj db haud hff hsb hv hsubj]
            cases hfind : db.users.find? (fun w => w.username = subj) with
            | none =>
              simp only [Option.map_none']
              constructor
              · intro hL
                simp at hL
              · rintro ⟨s1, hs1, tok1, htok1, subj1, hv1, u, hm, hu1, hid⟩
                obtain rfl : s1 = s := (Option.some.inj hs1).symm
                rw [hsb] at htok1
                obtain rfl : tok1 = tok := (Option.some.inj htok1).symm
                rw [hv] at hv1
                obtain rfl : subj1 = subj := (Except.ok.inj hv1).symm
                have hno := List.find?_eq_none.mp hfind u hm
                simp [hu1] at hno
            | some u0 =>
              have hmem := List.mem_of_find?_eq_some hfind
              have hpu : u0.username = subj := by simpa using List.find?_some hfind
              simp only [Option.map_some']
              constructor
              · intro hL
                exact ⟨s, rfl, tok, hsb, subj, hv, u0, hmem, hpu, Option.some.inj hL⟩
              · rintro ⟨s1, hs1, tok1, htok1, subj1, hv1, u, hm, hu1, hid⟩
                obtain rfl : s1 = s := (Option.some.inj hs1).symm
                rw [hsb] at htok1
                obtain rfl : tok1 = tok := (Option.some.inj htok1).symm
                rw [hv] at hv1
                obtain rfl : subj1 = subj := (Except.ok.inj hv1).symm
                have heq : u = u0 := hUq u hm u0 hmem (by show u.username = u0.username; rw [hu1, hpu])
                rw [← hid, heq]
  · intro s tok u hhdr hsb2 hm hv hneq hnou
    subst hhdr
    by_cases hemail : u.email = ""
    · rw [hemail] at hv
      exact getUserIdFromToken_empty_subject cfg s tok db haud hsb2 hv
    · rw [getUserIdFromToken_eval cfg s tok u.email db haud hff hsb2 hv hemail]
      have hfind : db.users.find? (fun w => w.username = u.email) = none :=
        List.find?_eq_none.mpr (fun x hx => by simpa using hnou x hx)
      rw [hfind]
      rfl

/-- Witness for C9 amended: a token whose subject equals the stored username
"alice" resolves to her id through the iff. -/
theorem extractor_resolves_subject_by_username_witness :
    getUserIdFromToken cfgTest (some "Bearer tok-alice-name") dbAliceBob = some "u1" := by
  exact (extractor_resolves_subject_by_username cfgTest (some "Bearer tok-alice-name")
      dbAliceBob "u1" rfl rfl (by decide) (by decide)).1.mpr
    ⟨"Bearer tok-alice-name", rfl, "tok-alice-name", by decide, "alice", by decide,
      alice, by decide, by decide, by decide⟩

end AuthRs
